import Mathlib

/-!
# GammaRay: connections table model and property editor factory

A shallow embedding of

* `src/core/tools/objectinspector/abstractconnectionsmodel.cpp`
  (`AbstractConnectionsModel::data`, `displayString`, `isDuplicate`,
  `isDirectCrossThreadConnection`), and
* `src/propertyeditor/propertyeditorfactory.cpp`
  (`PropertyEditorFactory::PropertyEditorFactory`, `createEditor`).

Conventions of the embedding.

* A `QObject*` / `QPointer<QObject>` is an `Option Nat`: `none` is the null
  pointer (a destroyed object), `some a` is the object at address `a`.
  Pointer comparison is comparison of addresses.
* `QObject::thread()` is a function `thread : Nat → Nat` from object
  addresses to thread addresses.
* C++ `int` is `Int`; the code only compares and prints ints, no arithmetic
  is done on them.
* `tr` is the identity (no translator installed).
* A `const Connection &` is a pair of the position of the record in
  `m_connections` and its value: `isDuplicate` compares addresses
  (`&c == &conn`), and the elements of the vector live at distinct addresses.
-/

set_option autoImplicit false

namespace GammaRay

/-! ## Toolkit values -/

/-- Translation lookup `tr`, without an installed translator. -/
def tr (s : String) : String := s

/-- Substitution of the place marker `%1` on character lists. -/
def argChars : List Char → List Char → List Char
  | [], _ => []
  | [c], _ => [c]
  | c :: d :: rest, a =>
    if c = '%' ∧ d = '1' then a ++ argChars rest a
    else c :: argChars (d :: rest) a

/-- The call `QString::arg(const QString &)` for a format string whose only
place marker is `%1`. -/
def QString.arg (s a : String) : String := ⟨argChars s.data a.data⟩

/-- The call `QString::number(int)`, base 10, which `QString::arg(int)` uses. -/
def QString.number (v : Int) : String :=
  if v < 0 then "-" ++ Nat.repr v.natAbs else Nat.repr v.natAbs

/-- The call `QString::arg(int)`. -/
def QString.argInt (s : String) (v : Int) : String := QString.arg s (QString.number v)

/-- The call `QStringList::join`. -/
def QStringList.join (l : List String) (sep : String) : String := sep.intercalate l

/-- Value of `Qt::DisplayRole`. -/
def Qt.DisplayRole : Int := 0

/-- Value of `Qt::ToolTipRole`. -/
def Qt.ToolTipRole : Int := 3

/-- A model index as the model sees it: row, column, and whether it belongs
to a model. -/
structure QModelIndex where
  row : Int
  column : Int
  hasModel : Bool
  deriving DecidableEq, Repr

/-- The call `QModelIndex::isValid`. -/
def QModelIndex.isValid (i : QModelIndex) : Bool :=
  decide (0 ≤ i.row) && decide (0 ≤ i.column) && i.hasModel

/-- The values `data` returns in a `QVariant`. -/
inductive QVariant where
  | invalid
  | string (s : String)
  | bool (b : Bool)
  | int (v : Int)
  | object (p : Option Nat)
  deriving DecidableEq, Repr

/-! ## Declarations of headers that are not part of the sources -/

/-- Modelled from the spec: the enumerators of `ConnectionsModelRoles`
(header `connectionsmodelroles.h`), taken as parameters. -/
structure ConnectionsModelRoles where
  WarningFlagRole : Int
  EndpointRole : Int
  ActionRole : Int
  deriving DecidableEq, Repr

/-- Modelled from the spec: the enumerators of `ConnectionsModelActions`
(header `connectionsmodelroles.h`), taken as parameters. -/
structure ConnectionsModelActions where
  NoAction : Int
  NavigateToEndpoint : Int
  deriving DecidableEq, Repr

/-- The item roles the model answers are five different numbers. -/
def ConnectionsModelRoles.Distinct (R : ConnectionsModelRoles) : Prop :=
  [Qt.DisplayRole, Qt.ToolTipRole, R.WarningFlagRole, R.EndpointRole, R.ActionRole].Nodup

instance (R : ConnectionsModelRoles) : Decidable R.Distinct := by
  unfold ConnectionsModelRoles.Distinct; infer_instance

/-- Modelled from the spec: the connection record `Connection` of
`abstractconnectionsmodel.h`: endpoint, signal index, slot index, type tag. -/
structure Connection where
  endpoint : Option Nat
  signalIndex : Int
  slotIndex : Int
  type : Int
  deriving DecidableEq, Repr

/-- Modelled from the spec: the members of `AbstractConnectionsModel`
(`abstractconnectionsmodel.h`): the records and the inspected object. -/
structure AbstractConnectionsModel where
  m_connections : List Connection
  m_object : Option Nat
  deriving DecidableEq, Repr

/-- What the model reads from its surroundings: the two enumerations and the
owning thread of every object. -/
structure Env where
  roles : ConnectionsModelRoles
  actions : ConnectionsModelActions
  thread : Nat → Nat

namespace AbstractConnectionsModel

/-! ## `abstractconnectionsmodel.cpp` -/

/-- The function `columnCount`. -/
def columnCount : Int := 4

/-- The function `rowCount`. -/
def rowCount (m : AbstractConnectionsModel) (parentValid : Bool) : Int :=
  if parentValid then 0 else m.m_connections.length

/-- The loop of `isDuplicate` over the records from position `pos` on;
`connPos` is the position of `conn`. -/
def isDuplicateLoop (connPos : Nat) (conn : Connection) : List Connection → Nat → Bool
  | [], _ => false
  | c :: rest, pos =>
    if pos = connPos then isDuplicateLoop connPos conn rest (pos + 1)
    else if c.endpoint = conn.endpoint ∧
        0 ≤ c.slotIndex ∧ c.slotIndex = conn.slotIndex ∧
        0 ≤ c.signalIndex ∧ c.signalIndex = conn.signalIndex then true
    else isDuplicateLoop connPos conn rest (pos + 1)

/-- The function `isDuplicate`, for the record `conn` at position `connPos`. -/
def isDuplicate (m : AbstractConnectionsModel) (connPos : Nat) (conn : Connection) : Bool :=
  isDuplicateLoop connPos conn m.m_connections 0

/-- The function `isDirectCrossThreadConnection`. -/
def isDirectCrossThreadConnection (E : Env) (m : AbstractConnectionsModel)
    (conn : Connection) : Bool :=
  match conn.endpoint, m.m_object with
  | some e, some o => if E.thread e = E.thread o then false else decide (conn.type = 1)
  | _, _ => false

/-- Text of the tooltip for a duplicated connection. -/
def duplicateTip : String :=
  "Connections exists multiple times.\nThe connected slot is called multiple times when the signal is emitted."

/-- Text of the tooltip for a direct cross-thread connection. -/
def crossThreadTip : String :=
  "Direct cross-thread connection.\nThe connected slot is called in the context of the emitting thread."

/-- The type column of `data`: the `switch (conn.type)`. -/
def typeText (E : Env) (m : AbstractConnectionsModel) (conn : Connection) : String :=
  if conn.type = 0 then
    match conn.endpoint, m.m_object with
    | some e, some o =>
      QString.arg (tr "Auto (%1)") (if E.thread e = E.thread o then "Direct" else "Queued")
    | _, _ => tr "Auto"
  else if conn.type = 1 then tr "Direct"
  else if conn.type = 2 then tr "Queued"
  else if conn.type = 3 ∨ conn.type = 4 then tr "Blocking"
  else QString.argInt (tr "Unknown: %1") conn.type

/-- The tips collected by the tooltip branch of `data`. -/
def tips (E : Env) (m : AbstractConnectionsModel) (connPos : Nat) (conn : Connection) :
    List String :=
  (if isDuplicate m connPos conn then [tr duplicateTip] else []) ++
  (if isDirectCrossThreadConnection E m conn then [tr crossThreadTip] else [])

/-- The tail of `data` after the tooltip branch: endpoint and action roles. -/
def dataTail (E : Env) (m : AbstractConnectionsModel) (role : Int) (conn : Connection) :
    QVariant :=
  if role = E.roles.EndpointRole then
    QVariant.object conn.endpoint
  else if role = E.roles.ActionRole then
    if conn.endpoint.isSome ∧ conn.endpoint ≠ m.m_object then
      QVariant.int E.actions.NavigateToEndpoint
    else QVariant.int E.actions.NoAction
  else QVariant.invalid

/-- The body of `data` once `conn` is bound to the record of the row. -/
def dataAt (E : Env) (m : AbstractConnectionsModel) (index : QModelIndex) (role : Int)
    (conn : Connection) : QVariant :=
  if role = Qt.DisplayRole ∧ index.column = 3 then
    QVariant.string (typeText E m conn)
  else if role = E.roles.WarningFlagRole ∧ index.column = 0 then
    QVariant.bool (isDuplicate m index.row.toNat conn || isDirectCrossThreadConnection E m conn)
  else if role = Qt.ToolTipRole then
    if ¬ (tips E m index.row.toNat conn).isEmpty then
      QVariant.string (QStringList.join (tips E m index.row.toNat conn) "\n\n")
    else dataTail E m role conn
  else dataTail E m role conn

/-- The function `data`. The result is `none` when `m_connections.at` is
called with a row that is out of range. -/
def data (E : Env) (m : AbstractConnectionsModel) (index : QModelIndex) (role : Int) :
    Option QVariant :=
  if ¬ index.isValid then some QVariant.invalid
  else
    match m.m_connections[index.row.toNat]? with
    | none => none
    | some conn => some (dataAt E m index role conn)

/-- The function `displayString(QObject *object, int methodIndex)`;
`prettyMethod o i` stands for
`Util::prettyMethodSignature(object->metaObject()->method(i))`. -/
def displayString (prettyMethod : Nat → Int → String) (object : Option Nat)
    (methodIndex : Int) : String :=
  match object with
  | none => tr "<destroyed>"
  | some o =>
    if methodIndex < 0 then tr "<unknown>"
    else prettyMethod o methodIndex

/-- The function `displayString(QObject *object)`; `utilDisplayString`
stands for `Util::displayString`. -/
def displayStringObject (utilDisplayString : Nat → String) (object : Option Nat) : String :=
  match object with
  | none => tr "<destroyed>"
  | some o => utilDisplayString o

/-- The function `signalIndexToMethodIndex`; `toMethodIndex` stands for
`Util::signalIndexToMethodIndex` on the meta object of the object. The result
is `none` when `Q_ASSERT(object)` fails. -/
def signalIndexToMethodIndex (toMethodIndex : Nat → Int → Int) (object : Option Nat)
    (signalIndex : Int) : Option Int :=
  if signalIndex < 0 then some signalIndex
  else
    match object with
    | none => none
    | some o => some (toMethodIndex o signalIndex)

end AbstractConnectionsModel

/-! ## `propertyeditorfactory.cpp` -/

/-- Value of `QVariant::Size`. -/
def QVariant.Size : Int := 21

/-- Value of `QVariant::SizeF`. -/
def QVariant.SizeF : Int := 22

/-- Value of `QVariant::Point`. -/
def QVariant.Point : Int := 25

/-- Value of `QVariant::PointF`. -/
def QVariant.PointF : Int := 26

/-- A widget as far as the factory is concerned: the editor class it is an
instance of, its parent, and the auto-fill-background property. -/
structure QWidget where
  editorClass : String
  parent : Option Nat
  autoFillBackground : Bool
  deriving DecidableEq, Repr

/-- Modelled from the spec: the toolkit base class `QItemEditorFactory`, which
is not part of the sources: a registry from value kinds to editor creators. A
creator `QStandardItemEditorCreator<T>` is the name of the class `T`. -/
structure QItemEditorFactory where
  creatorMap : List (Int × String)
  deriving DecidableEq, Repr

/-- Modelled from the spec: the base class operation `registerEditor`, which
is not part of the sources: the creator registered for the kind replaces an
earlier one. -/
def QItemEditorFactory.registerEditor (f : QItemEditorFactory) (type : Int)
    (creator : String) : QItemEditorFactory :=
  ⟨(type, creator) :: f.creatorMap.filter (fun e => e.1 ≠ type)⟩

/-- Modelled from the spec: the base class operation `createEditor`, which is
not part of the sources: the creator registered for the kind builds a fresh
widget (auto-fill off) under the parent; there is no result when no editor
exists for the kind. -/
def QItemEditorFactory.createEditor (f : QItemEditorFactory) (type : Int)
    (parent : Option Nat) : Option QWidget :=
  match f.creatorMap.lookup type with
  | none => none
  | some creator => some ⟨creator, parent, false⟩

/-- The call `QWidget::setAutoFillBackground`. -/
def QWidget.setAutoFillBackground (w : QWidget) (enabled : Bool) : QWidget :=
  { w with autoFillBackground := enabled }

namespace PropertyEditorFactory

/-- The constructor `PropertyEditorFactory::PropertyEditorFactory`: the four
registrations on an empty base factory. -/
def new : QItemEditorFactory :=
  ((((⟨[]⟩ : QItemEditorFactory).registerEditor QVariant.Point "PropertyPointEditor"
    ).registerEditor QVariant.PointF "PropertyPointFEditor"
    ).registerEditor QVariant.Size "PropertySizeEditor"
    ).registerEditor QVariant.SizeF "PropertySizeFEditor"

/-- The function `PropertyEditorFactory::createEditor`. -/
def createEditor (f : QItemEditorFactory) (type : Int) (parent : Option Nat) :
    Option QWidget :=
  match QItemEditorFactory.createEditor f type parent with
  | none => none
  | some w => some (w.setAutoFillBackground true)

end PropertyEditorFactory

/-! ## Reading a decimal numeral -/

/-- The number that a list of decimal digits denotes, the most significant
digit first. -/
def decimalValue (ds : List Char) : Nat :=
  ds.foldl (fun acc c => 10 * acc + (c.toNat - 48)) 0

/-! ## Sample surroundings -/

/-- A sample environment: the roles follow `Qt::UserRole` (256), the actions
are 0 and 1, and objects at even and at odd addresses live in two threads. -/
def sampleEnv : Env := ⟨⟨257, 258, 259⟩, ⟨0, 1⟩, fun a => a % 2⟩

/-- A change of one of the three fields that identify a connection. -/
inductive FieldChange where
  | endpoint (e : Option Nat)
  | signalIndex (v : Int)
  | slotIndex (v : Int)
  deriving DecidableEq, Repr

/-- The record after the change. -/
def FieldChange.apply : FieldChange → Connection → Connection
  | FieldChange.endpoint e, c => { c with endpoint := e }
  | FieldChange.signalIndex v, c => { c with signalIndex := v }
  | FieldChange.slotIndex v, c => { c with slotIndex := v }

/-- The new value of the field is not the old one. -/
def FieldChange.Differs : FieldChange → Connection → Prop
  | FieldChange.endpoint e, c => e ≠ c.endpoint
  | FieldChange.signalIndex v, c => v ≠ c.signalIndex
  | FieldChange.slotIndex v, c => v ≠ c.slotIndex

/-- The model after the record at position `i` has been replaced. -/
def AbstractConnectionsModel.setRecord (m : AbstractConnectionsModel) (i : Nat)
    (c : Connection) : AbstractConnectionsModel :=
  { m with m_connections := m.m_connections.set i c }

/-! ## The test of `isDuplicate` as a proposition -/

namespace AbstractConnectionsModel

/-- The test `isDuplicate` applies to a record `c` other than `conn`. -/
def Matches (c conn : Connection) : Prop :=
  c.endpoint = conn.endpoint ∧
    0 ≤ c.slotIndex ∧ c.slotIndex = conn.slotIndex ∧
    0 ≤ c.signalIndex ∧ c.signalIndex = conn.signalIndex

instance (c conn : Connection) : Decidable (Matches c conn) := by
  unfold Matches; infer_instance

end AbstractConnectionsModel

/-! ## Helper lemmas -/

theorem decimalValue_append_singleton (ds : List Char) (c : Char) :
    decimalValue (ds ++ [c]) = 10 * decimalValue ds + (c.toNat - 48) := by
  simp [decimalValue, List.foldl_append]

theorem digitChar_decimal (d : Nat) (h : d < 10) :
    (Nat.digitChar d).isDigit = true ∧ (Nat.digitChar d).toNat - 48 = d ∧
      (d ≠ 0 → Nat.digitChar d ≠ '0') := by
  interval_cases d <;> decide

theorem toDigitsCore_decimal (fuel : Nat) :
    ∀ (n : Nat) (ds : List Char), n < fuel →
      ∃ pre, Nat.toDigitsCore 10 fuel n ds = pre ++ ds ∧
        (∀ c ∈ pre, c.isDigit = true) ∧ decimalValue pre = n ∧
        (n ≠ 0 → pre.head? ≠ some '0') ∧ pre ≠ [] := by
  induction fuel with
  | zero => intro n ds h; omega
  | succ fuel ih =>
    intro n ds h
    unfold Nat.toDigitsCore
    by_cases hq : n / 10 = 0
    · have hn : n < 10 := by omega
      have hmod : n % 10 = n := Nat.mod_eq_of_lt hn
      obtain ⟨h1, h2, h3⟩ := digitChar_decimal n hn
      refine ⟨[Nat.digitChar n], ?_, ?_, ?_, ?_, ?_⟩
      · simp [hq, hmod]
      · intro c hc
        simp at hc
        subst hc
        exact h1
      · simp [decimalValue, h2]
      · intro h0
        simpa using h3 h0
      · simp
    · obtain ⟨pre, hp, hdig, hval, hhead, hne⟩ :=
        ih (n / 10) (Nat.digitChar (n % 10) :: ds) (by omega)
      obtain ⟨h1, h2, -⟩ := digitChar_decimal (n % 10) (Nat.mod_lt _ (by decide))
      refine ⟨pre ++ [Nat.digitChar (n % 10)], ?_, ?_, ?_, ?_, ?_⟩
      · simp [hq, hp]
      · intro c hc
        rcases List.mem_append.1 hc with hc | hc
        · exact hdig c hc
        · simp at hc
          subst hc
          exact h1
      · rw [decimalValue_append_singleton, hval, h2]
        omega
      · intro _
        cases pre with
        | nil => exact absurd rfl hne
        | cons x xs => simpa using hhead hq
      · simp

theorem repr_decimal (n : Nat) :
    ∃ ds, Nat.repr n = String.mk ds ∧ (∀ c ∈ ds, c.isDigit = true) ∧
      decimalValue ds = n ∧ (n ≠ 0 → ds.head? ≠ some '0') := by
  obtain ⟨pre, hp, hdig, hval, hhead, -⟩ := toDigitsCore_decimal (n + 1) n [] (by omega)
  refine ⟨pre, ?_, hdig, hval, hhead⟩
  simp [Nat.repr, Nat.toDigits, hp, List.asString]

theorem number_eq_toString (v : Int) : QString.number v = toString v := by
  unfold QString.number
  cases v with
  | ofNat n =>
    have h : ¬ (Int.ofNat n < 0) := by simp
    rw [if_neg h]
    rfl
  | negSucc n =>
    have h : Int.negSucc n < 0 := Int.negSucc_lt_zero n
    rw [if_pos h]
    rfl

theorem number_decimal (v : Int) :
    ∃ ds, QString.number v = (if v < 0 then "-" else "") ++ String.mk ds ∧
      (∀ c ∈ ds, c.isDigit = true) ∧ decimalValue ds = v.natAbs ∧
      (v ≠ 0 → ds.head? ≠ some '0') := by
  obtain ⟨ds, hr, hdig, hval, hhead⟩ := repr_decimal v.natAbs
  refine ⟨ds, ?_, hdig, hval, fun h => hhead (by simpa using h)⟩
  unfold QString.number
  by_cases h : v < 0
  · simp [h, hr]
  · simp [h, hr]

namespace AbstractConnectionsModel

theorem isDuplicateLoop_eq_true_iff (connPos : Nat) (conn : Connection)
    (l : List Connection) (pos : Nat) :
    isDuplicateLoop connPos conn l pos = true ↔
      ∃ j c, l[j]? = some c ∧ pos + j ≠ connPos ∧ Matches c conn := by
  induction l generalizing pos with
  | nil => simp [isDuplicateLoop]
  | cons x rest ih =>
    unfold isDuplicateLoop
    constructor
    · intro h
      split at h
      · obtain ⟨j, c, hj, hne, hm⟩ := (ih (pos + 1)).1 h
        exact ⟨j + 1, c, by simpa using hj, by omega, hm⟩
      · split at h
        · rename_i hpos hm
          exact ⟨0, x, by simp, by simpa using hpos, hm⟩
        · obtain ⟨j, c, hj, hne, hm⟩ := (ih (pos + 1)).1 h
          exact ⟨j + 1, c, by simpa using hj, by omega, hm⟩
    · rintro ⟨j, c, hj, hne, hm⟩
      cases j with
      | zero =>
        simp at hj
        subst hj
        have hpos : pos ≠ connPos := by simpa using hne
        rw [if_neg hpos]
        exact if_pos hm
      | succ j =>
        have hrec : isDuplicateLoop connPos conn rest (pos + 1) = true :=
          (ih (pos + 1)).2 ⟨j, c, by simpa using hj, by omega, hm⟩
        split
        · exact hrec
        · split
          · rfl
          · exact hrec

theorem isDuplicate_eq_true_iff (m : AbstractConnectionsModel) (connPos : Nat)
    (conn : Connection) :
    isDuplicate m connPos conn = true ↔
      ∃ j c, m.m_connections[j]? = some c ∧ j ≠ connPos ∧ Matches c conn := by
  unfold isDuplicate
  rw [isDuplicateLoop_eq_true_iff]
  simp

theorem isDuplicate_eq_false_iff (m : AbstractConnectionsModel) (connPos : Nat)
    (conn : Connection) :
    isDuplicate m connPos conn = false ↔
      ∀ j c, m.m_connections[j]? = some c → j ≠ connPos → ¬ Matches c conn := by
  rw [← Bool.not_eq_true, isDuplicate_eq_true_iff]
  constructor
  · intro h j c hj hne hm
    exact h ⟨j, c, hj, hne, hm⟩
  · rintro h ⟨j, c, hj, hne, hm⟩
    exact h j c hj hne hm

theorem data_of_valid (E : Env) (m : AbstractConnectionsModel) (index : QModelIndex)
    (role : Int) (conn : Connection) (hv : index.isValid = true)
    (hr : m.m_connections[index.row.toNat]? = some conn) :
    data E m index role = some (dataAt E m index role conn) := by
  simp [data, hv, hr]

theorem argChars_unknown (a : List Char) :
    argChars "Unknown: %1".data a = "Unknown: ".data ++ a := by
  show argChars ['U', 'n', 'k', 'n', 'o', 'w', 'n', ':', ' ', '%', '1'] a = _
  simp [argChars]

theorem arg_unknown (a : String) : QString.arg "Unknown: %1" a = "Unknown: " ++ a := by
  unfold QString.arg
  rw [argChars_unknown]
  rfl

theorem typeText_unknown (E : Env) (m : AbstractConnectionsModel) (conn : Connection)
    (h : conn.type < 0 ∨ 4 < conn.type) :
    typeText E m conn = "Unknown: " ++ QString.number conn.type := by
  unfold typeText
  have h0 : conn.type ≠ 0 := by omega
  have h1 : conn.type ≠ 1 := by omega
  have h2 : conn.type ≠ 2 := by omega
  have h34 : ¬ (conn.type = 3 ∨ conn.type = 4) := by omega
  rw [if_neg h0, if_neg h1, if_neg h2, if_neg h34]
  exact arg_unknown _

theorem distinct_facts (R : ConnectionsModelRoles) (h : R.Distinct) :
    R.WarningFlagRole ≠ Qt.DisplayRole ∧ R.WarningFlagRole ≠ Qt.ToolTipRole ∧
    R.WarningFlagRole ≠ R.EndpointRole ∧ R.WarningFlagRole ≠ R.ActionRole ∧
    R.EndpointRole ≠ Qt.DisplayRole ∧ R.EndpointRole ≠ Qt.ToolTipRole ∧
    R.EndpointRole ≠ R.ActionRole ∧
    R.ActionRole ≠ Qt.DisplayRole ∧ R.ActionRole ≠ Qt.ToolTipRole ∧
    Qt.ToolTipRole ≠ Qt.DisplayRole := by
  unfold ConnectionsModelRoles.Distinct at h
  simp only [List.nodup_cons, List.mem_cons, List.mem_singleton, List.not_mem_nil,
    not_or, or_false, List.nodup_nil, and_true, not_false_eq_true] at h
  obtain ⟨⟨h1, h2, h3, h4⟩, ⟨h5, h6, h7⟩, ⟨h8, h9⟩, h10⟩ := h
  refine ⟨Ne.symm h2, Ne.symm h5, h8, h9, Ne.symm h3, Ne.symm h6, h10, Ne.symm h4,
    Ne.symm h7, Ne.symm h1⟩

theorem dataAt_warning_column0 (E : Env) (m : AbstractConnectionsModel)
    (index : QModelIndex) (conn : Connection) (hc : index.column = 0) :
    dataAt E m index E.roles.WarningFlagRole conn =
      QVariant.bool (isDuplicate m index.row.toNat conn ||
        isDirectCrossThreadConnection E m conn) := by
  simp [dataAt, hc]

theorem dataAt_warning_other_column (E : Env) (m : AbstractConnectionsModel)
    (index : QModelIndex) (conn : Connection) (hD : E.roles.Distinct)
    (hc : index.column ≠ 0) :
    dataAt E m index E.roles.WarningFlagRole conn = QVariant.invalid := by
  obtain ⟨h1, h2, h3, h4, -⟩ := distinct_facts E.roles hD
  simp [dataAt, dataTail, hc, h1, h2, h3, h4]

theorem dataAt_action (E : Env) (m : AbstractConnectionsModel)
    (index : QModelIndex) (conn : Connection) (hD : E.roles.Distinct) :
    dataAt E m index E.roles.ActionRole conn =
      if conn.endpoint.isSome ∧ conn.endpoint ≠ m.m_object then
        QVariant.int E.actions.NavigateToEndpoint
      else QVariant.int E.actions.NoAction := by
  obtain ⟨-, -, -, h4, -, -, h7, h8, h9, -⟩ := distinct_facts E.roles hD
  simp [dataAt, dataTail, h4.symm, h7.symm, h8, h9]

theorem dataAt_tooltip (E : Env) (m : AbstractConnectionsModel)
    (index : QModelIndex) (conn : Connection) (hD : E.roles.Distinct) :
    dataAt E m index Qt.ToolTipRole conn =
      if (tips E m index.row.toNat conn).isEmpty then QVariant.invalid
      else QVariant.string (QStringList.join (tips E m index.row.toNat conn) "\n\n") := by
  obtain ⟨-, h2, -, -, -, h6, -, -, h9, h10⟩ := distinct_facts E.roles hD
  by_cases ht : (tips E m index.row.toNat conn).isEmpty = true
  · simp [dataAt, dataTail, h2.symm, h6.symm, h9.symm, h10, ht]
  · simp [dataAt, dataTail, h2.symm, h10, ht]

theorem join_two (a b : String) : QStringList.join [a, b] "\n\n" = a ++ "\n\n" ++ b := by
  simp [QStringList.join, String.intercalate, String.intercalate.go]

theorem join_one (a : String) : QStringList.join [a] "\n\n" = a := by
  simp [QStringList.join, String.intercalate, String.intercalate.go]

theorem duplicateTip_ne_empty : duplicateTip ≠ "" := by decide

theorem crossThreadTip_ne_empty : crossThreadTip ≠ "" := by decide

theorem bothTips_ne_empty : duplicateTip ++ "\n\n" ++ crossThreadTip ≠ "" := by decide

set_option maxRecDepth 100000 in
theorem duplicateTip_not_in_crossThreadTip :
    ¬ (duplicateTip.data <:+: crossThreadTip.data) := by decide

set_option maxRecDepth 100000 in
theorem crossThreadTip_not_in_duplicateTip :
    ¬ (crossThreadTip.data <:+: duplicateTip.data) := by decide

theorem set_self_of_getElem? (l : List Connection) (i : Nat) (a c : Connection)
    (h : l[i]? = some a) : (l.set i c)[i]? = some c := by
  have hlt : i < l.length := by
    by_contra hn
    rw [List.getElem?_eq_none (by omega)] at h
    exact Option.noConfusion h
  simp [List.getElem?_set_self hlt]

end AbstractConnectionsModel

/-! ## The claims -/

namespace AbstractConnectionsModel

/-- C1: for a record `r` stored at position `i`, `isDuplicate` is true exactly
when a record at another position has the same endpoint, the same slot index
and the same signal index as `r`, both indices being at least 0; hence two
records at different positions that agree on such a triple are both reported
as duplicates. -/
theorem isDuplicate_iff_other_record (m : AbstractConnectionsModel) (i : Nat)
    (r : Connection) (hr : m.m_connections[i]? = some r) :
    (isDuplicate m i r = true ↔
      ∃ j c, j ≠ i ∧ m.m_connections[j]? = some c ∧
        c.endpoint = r.endpoint ∧
        c.slotIndex = r.slotIndex ∧ 0 ≤ r.slotIndex ∧
        c.signalIndex = r.signalIndex ∧ 0 ≤ r.signalIndex) ∧
    (∀ j c, j ≠ i → m.m_connections[j]? = some c →
        c.endpoint = r.endpoint →
        c.signalIndex = r.signalIndex → 0 ≤ r.signalIndex →
        c.slotIndex = r.slotIndex → 0 ≤ r.slotIndex →
        isDuplicate m i r = true ∧ isDuplicate m j c = true) := by
  refine ⟨?_, ?_⟩
  · rw [isDuplicate_eq_true_iff]
    constructor
    · rintro ⟨j, c, hj, hne, he, hs, hs2, hg, hg2⟩
      exact ⟨j, c, hne, hj, he, hs2, hs2 ▸ hs, hg2, hg2 ▸ hg⟩
    · rintro ⟨j, c, hne, hj, he, hs, hs2, hg, hg2⟩
      exact ⟨j, c, hj, hne, he, hs ▸ hs2, hs, hg ▸ hg2, hg⟩
  · intro j c hne hj he hg hg2 hs hs2
    constructor
    · rw [isDuplicate_eq_true_iff]
      exact ⟨j, c, hj, hne, he, hs ▸ hs2, hs, hg ▸ hg2, hg⟩
    · rw [isDuplicate_eq_true_iff]
      exact ⟨i, r, hr, fun h => hne h.symm, he.symm, hs2, hs.symm, hg2, hg.symm⟩

/-- Witness of C1: two equal records at positions 0 and 1. -/
theorem isDuplicate_iff_other_record_witness :
    isDuplicate ⟨[⟨some 7, 2, 5, 0⟩, ⟨some 7, 2, 5, 1⟩], some 3⟩ 0 ⟨some 7, 2, 5, 0⟩ = true ∧
    isDuplicate ⟨[⟨some 7, 2, 5, 0⟩, ⟨some 7, 2, 5, 1⟩], some 3⟩ 1 ⟨some 7, 2, 5, 1⟩ = true :=
  (isDuplicate_iff_other_record ⟨[⟨some 7, 2, 5, 0⟩, ⟨some 7, 2, 5, 1⟩], some 3⟩ 0
    ⟨some 7, 2, 5, 0⟩ rfl).2 1 ⟨some 7, 2, 5, 1⟩ (by decide) rfl rfl rfl (by decide) rfl
    (by decide)

/-- C4: `isDirectCrossThreadConnection` is true exactly when the type tag is
1, the endpoint and the subject are both present and their owning threads
differ; it is false whenever the endpoint or the subject is absent, whatever
the type tag. -/
theorem isDirectCrossThreadConnection_iff (E : Env) (m : AbstractConnectionsModel)
    (conn : Connection) :
    (isDirectCrossThreadConnection E m conn = true ↔
      conn.type = 1 ∧ ∃ e o, conn.endpoint = some e ∧ m.m_object = some o ∧
        E.thread e ≠ E.thread o) ∧
    ((conn.endpoint = none ∨ m.m_object = none) →
      isDirectCrossThreadConnection E m conn = false) := by
  unfold isDirectCrossThreadConnection
  rcases he : conn.endpoint with _ | e <;> rcases ho : m.m_object with _ | o <;> simp
  by_cases ht : E.thread e = E.thread o <;> simp [ht]

/-- Witness of C4: a direct connection to a destroyed endpoint. -/
theorem isDirectCrossThreadConnection_iff_witness :
    isDirectCrossThreadConnection ⟨⟨257, 258, 259⟩, ⟨0, 1⟩, fun a => a⟩ ⟨[], some 3⟩
      ⟨none, 2, 5, 1⟩ = false :=
  (isDirectCrossThreadConnection_iff ⟨⟨257, 258, 259⟩, ⟨0, 1⟩, fun a => a⟩ ⟨[], some 3⟩
    ⟨none, 2, 5, 1⟩).2 (Or.inl rfl)

/-- C5: on a valid row, the display text of column 3 is "Auto" for type 0
with the endpoint or the subject absent, "Auto (Direct)" for type 0 with both
present on one thread, "Auto (Queued)" for type 0 with both present on
different threads, "Direct" for type 1, "Queued" for type 2, "Blocking" for
types 3 and 4, and "Unknown: " followed by the decimal number for every other
type, negative ones included. The decimal number is the text `toString`
gives for the integer: a minus sign for a negative type, then decimal digits
without a leading zero that denote the absolute value of the type. -/
theorem data_type_column (E : Env) (m : AbstractConnectionsModel) (index : QModelIndex)
    (conn : Connection) (hv : index.isValid = true) (hc : index.column = 3)
    (hr : m.m_connections[index.row.toNat]? = some conn) :
    (conn.type = 0 → (conn.endpoint = none ∨ m.m_object = none) →
      data E m index Qt.DisplayRole = some (QVariant.string "Auto")) ∧
    (conn.type = 0 → ∀ e o, conn.endpoint = some e → m.m_object = some o →
      E.thread e = E.thread o →
      data E m index Qt.DisplayRole = some (QVariant.string "Auto (Direct)")) ∧
    (conn.type = 0 → ∀ e o, conn.endpoint = some e → m.m_object = some o →
      E.thread e ≠ E.thread o →
      data E m index Qt.DisplayRole = some (QVariant.string "Auto (Queued)")) ∧
    (conn.type = 1 → data E m index Qt.DisplayRole = some (QVariant.string "Direct")) ∧
    (conn.type = 2 → data E m index Qt.DisplayRole = some (QVariant.string "Queued")) ∧
    (conn.type = 3 ∨ conn.type = 4 →
      data E m index Qt.DisplayRole = some (QVariant.string "Blocking")) ∧
    (conn.type < 0 ∨ 4 < conn.type →
      data E m index Qt.DisplayRole =
        some (QVariant.string ("Unknown: " ++ toString conn.type))) ∧
    (conn.type < 0 ∨ 4 < conn.type →
      ∃ ds, data E m index Qt.DisplayRole =
          some (QVariant.string
            ("Unknown: " ++ ((if conn.type < 0 then "-" else "") ++ String.mk ds))) ∧
        (∀ c ∈ ds, c.isDigit = true) ∧ decimalValue ds = conn.type.natAbs ∧
        ds.head? ≠ some '0') := by
  have hd : data E m index Qt.DisplayRole = some (QVariant.string (typeText E m conn)) := by
    rw [data_of_valid E m index _ conn hv hr]
    simp [dataAt, hc]
  rw [hd]
  refine ⟨?_, ?_, ?_, ?_, ?_, ?_, ?_, ?_⟩
  · rintro h0 (he | ho)
    · simp [typeText, h0, he, tr]
    · rcases he : conn.endpoint with _ | e <;> simp [typeText, h0, he, ho, tr]
  · intro h0 e o he ho ht
    simp only [typeText, h0, he, ho, ht, tr, if_true]
    rfl
  · intro h0 e o he ho ht
    simp only [typeText, h0, he, ho, ht, tr, if_true, if_false]
    rfl
  · intro h1
    simp [typeText, h1, tr]
  · intro h2
    simp [typeText, h2, tr]
  · rintro (h3 | h4)
    · simp [typeText, h3, tr]
    · simp [typeText, h4, tr]
  · intro h
    rw [typeText_unknown E m conn h, number_eq_toString]
  · intro h
    obtain ⟨ds, hn, hdig, hval, hhead⟩ := number_decimal conn.type
    refine ⟨ds, ?_, hdig, hval, hhead (by omega)⟩
    rw [typeText_unknown E m conn h, hn]

/-- Witness of C5: a record of type -7 in row 0 and a record of type 2014 in
row 1. -/
theorem data_type_column_witness :
    data sampleEnv ⟨[⟨some 7, 2, 5, -7⟩, ⟨some 7, 2, 6, 2014⟩], some 3⟩
      ⟨0, 3, true⟩ Qt.DisplayRole = some (QVariant.string "Unknown: -7") ∧
    data sampleEnv ⟨[⟨some 7, 2, 5, -7⟩, ⟨some 7, 2, 6, 2014⟩], some 3⟩
      ⟨1, 3, true⟩ Qt.DisplayRole = some (QVariant.string "Unknown: 2014") :=
  ⟨(data_type_column sampleEnv ⟨[⟨some 7, 2, 5, -7⟩, ⟨some 7, 2, 6, 2014⟩], some 3⟩
      ⟨0, 3, true⟩ ⟨some 7, 2, 5, -7⟩ rfl rfl rfl).2.2.2.2.2.2.1 (Or.inl (by decide)),
    (data_type_column sampleEnv ⟨[⟨some 7, 2, 5, -7⟩, ⟨some 7, 2, 6, 2014⟩], some 3⟩
      ⟨1, 3, true⟩ ⟨some 7, 2, 6, 2014⟩ rfl rfl rfl).2.2.2.2.2.2.1 (Or.inr (by decide))⟩

/-- C6 fails as stated: in column 1 the warning flag role of a duplicated
record yields an empty value, not the boolean. -/
theorem data_warning_flag_column1_counterexample :
    QModelIndex.isValid ⟨0, 1, true⟩ = true ∧
    isDuplicate ⟨[⟨some 7, 2, 5, 0⟩, ⟨some 7, 2, 5, 0⟩], some 3⟩ 0 ⟨some 7, 2, 5, 0⟩ = true ∧
    data sampleEnv ⟨[⟨some 7, 2, 5, 0⟩, ⟨some 7, 2, 5, 0⟩], some 3⟩ ⟨0, 1, true⟩
      sampleEnv.roles.WarningFlagRole = some QVariant.invalid ∧
    data sampleEnv ⟨[⟨some 7, 2, 5, 0⟩, ⟨some 7, 2, 5, 0⟩], some 3⟩ ⟨0, 1, true⟩
      sampleEnv.roles.WarningFlagRole ≠
      some (QVariant.bool
        (isDuplicate ⟨[⟨some 7, 2, 5, 0⟩, ⟨some 7, 2, 5, 0⟩], some 3⟩ 0 ⟨some 7, 2, 5, 0⟩ ||
          isDirectCrossThreadConnection sampleEnv
            ⟨[⟨some 7, 2, 5, 0⟩, ⟨some 7, 2, 5, 0⟩], some 3⟩ ⟨some 7, 2, 5, 0⟩)) := by
  decide

/-- C6, amended: on a valid row the warning flag role yields, in column 0, the
boolean `isDuplicate || isDirectCrossThreadConnection` of the record of the
row; in the other columns, the roles being distinct, it yields an empty
value. -/
theorem data_warning_flag (E : Env) (m : AbstractConnectionsModel) (index : QModelIndex)
    (conn : Connection) (hv : index.isValid = true)
    (hr : m.m_connections[index.row.toNat]? = some conn) :
    (index.column = 0 →
      data E m index E.roles.WarningFlagRole =
        some (QVariant.bool (isDuplicate m index.row.toNat conn ||
          isDirectCrossThreadConnection E m conn))) ∧
    (E.roles.Distinct → index.column ≠ 0 →
      data E m index E.roles.WarningFlagRole = some QVariant.invalid) := by
  rw [data_of_valid E m index _ conn hv hr]
  constructor
  · intro hc
    rw [dataAt_warning_column0 E m index conn hc]
  · intro hD hc
    rw [dataAt_warning_other_column E m index conn hD hc]

/-- Witness of C6, amended: column 0 of a direct cross-thread connection. -/
theorem data_warning_flag_witness :
    data sampleEnv ⟨[⟨some 7, 2, 5, 1⟩], some 4⟩ ⟨0, 0, true⟩
      sampleEnv.roles.WarningFlagRole = some (QVariant.bool true) :=
  (data_warning_flag sampleEnv ⟨[⟨some 7, 2, 5, 1⟩], some 4⟩ ⟨0, 0, true⟩
    ⟨some 7, 2, 5, 1⟩ rfl rfl).1 rfl

/-- C7: on a valid cell the action role yields `NavigateToEndpoint` when the
endpoint is present and is not the subject, and `NoAction` when the endpoint
is absent or is the subject; the two tags being different, it yields
`NavigateToEndpoint` exactly in the first case. It never yields an empty
value. -/
theorem data_action_role (E : Env) (m : AbstractConnectionsModel) (index : QModelIndex)
    (conn : Connection) (hD : E.roles.Distinct) (hv : index.isValid = true)
    (hr : m.m_connections[index.row.toNat]? = some conn) :
    ((∃ e, conn.endpoint = some e ∧ m.m_object ≠ some e) →
      data E m index E.roles.ActionRole =
        some (QVariant.int E.actions.NavigateToEndpoint)) ∧
    ((conn.endpoint = none ∨ conn.endpoint = m.m_object) →
      data E m index E.roles.ActionRole = some (QVariant.int E.actions.NoAction)) ∧
    (E.actions.NavigateToEndpoint ≠ E.actions.NoAction →
      (data E m index E.roles.ActionRole =
          some (QVariant.int E.actions.NavigateToEndpoint) ↔
        ∃ e, conn.endpoint = some e ∧ m.m_object ≠ some e)) ∧
    data E m index E.roles.ActionRole ≠ some QVariant.invalid := by
  rw [data_of_valid E m index _ conn hv hr, dataAt_action E m index conn hD]
  rcases he : conn.endpoint with _ | e
  · simp
    intro h1 h2
    exact absurd h2.symm h1
  · by_cases ho : m.m_object = some e
    · simp [ho]
      intro h1 h2
      exact absurd h2.symm h1
    · have ho2 : ¬ (some e = m.m_object) := fun h => ho h.symm
      simp [ho, ho2]

/-- Witness of C7: the endpoint at address 7 is not the subject at address 3. -/
theorem data_action_role_witness :
    data sampleEnv ⟨[⟨some 7, 2, 5, 1⟩], some 3⟩ ⟨0, 2, true⟩ sampleEnv.roles.ActionRole =
      some (QVariant.int sampleEnv.actions.NavigateToEndpoint) :=
  (data_action_role sampleEnv ⟨[⟨some 7, 2, 5, 1⟩], some 3⟩ ⟨0, 2, true⟩
    ⟨some 7, 2, 5, 1⟩ (by decide) rfl rfl).1 ⟨7, rfl, by decide⟩

/-- C10: on a valid row, the roles being distinct, the tooltip role yields a
non-empty text exactly when the warning flag of column 0 of the row is true.
The text is the duplicate warning, a blank line and the cross-thread warning
when both predicates hold, the one warning whose predicate holds when only
one does, and an empty value when neither holds; so a returned text contains
the duplicate warning exactly when `isDuplicate` holds and the cross-thread
warning exactly when `isDirectCrossThreadConnection` holds. -/
theorem data_tooltip_agrees_with_flag (E : Env) (m : AbstractConnectionsModel)
    (index : QModelIndex) (conn : Connection) (hD : E.roles.Distinct)
    (hv : index.isValid = true) (hr : m.m_connections[index.row.toNat]? = some conn) :
    ((∃ s, data E m index Qt.ToolTipRole = some (QVariant.string s) ∧ s ≠ "") ↔
      data E m ⟨index.row, 0, index.hasModel⟩ E.roles.WarningFlagRole =
        some (QVariant.bool true)) ∧
    (isDuplicate m index.row.toNat conn = true →
      isDirectCrossThreadConnection E m conn = true →
      data E m index Qt.ToolTipRole =
        some (QVariant.string (duplicateTip ++ "\n\n" ++ crossThreadTip))) ∧
    (isDuplicate m index.row.toNat conn = true →
      isDirectCrossThreadConnection E m conn = false →
      data E m index Qt.ToolTipRole = some (QVariant.string duplicateTip)) ∧
    (isDuplicate m index.row.toNat conn = false →
      isDirectCrossThreadConnection E m conn = true →
      data E m index Qt.ToolTipRole = some (QVariant.string crossThreadTip)) ∧
    (isDuplicate m index.row.toNat conn = false →
      isDirectCrossThreadConnection E m conn = false →
      data E m index Qt.ToolTipRole = some QVariant.invalid) ∧
    (∀ s, data E m index Qt.ToolTipRole = some (QVariant.string s) →
      (duplicateTip.data <:+: s.data ↔ isDuplicate m index.row.toNat conn = true) ∧
      (crossThreadTip.data <:+: s.data ↔ isDirectCrossThreadConnection E m conn = true)) := by
  have hv0 : QModelIndex.isValid ⟨index.row, 0, index.hasModel⟩ = true := by
    simp only [QModelIndex.isValid, Bool.and_eq_true, decide_eq_true_eq] at hv ⊢
    exact ⟨⟨hv.1.1, le_refl 0⟩, hv.2⟩
  have hflag := data_of_valid E m ⟨index.row, 0, index.hasModel⟩ E.roles.WarningFlagRole
    conn hv0 hr
  rw [dataAt_warning_column0 E m _ conn rfl] at hflag
  rw [hflag, data_of_valid E m index _ conn hv hr, dataAt_tooltip E m index conn hD]
  simp only [tips, tr]
  rcases hdup : isDuplicate m index.row.toNat conn <;>
    rcases hcross : isDirectCrossThreadConnection E m conn
  · simp
  · simp [join_one, crossThreadTip_ne_empty, crossThreadTip_not_in_duplicateTip,
      duplicateTip_not_in_crossThreadTip]
  · simp [join_one, duplicateTip_ne_empty]
    exact crossThreadTip_not_in_duplicateTip
  · have hne := bothTips_ne_empty
    simp [join_two, hne]
    exact ⟨(List.prefix_append _ _).isInfix,
      List.IsSuffix.isInfix ⟨duplicateTip.data ++ ['\n', '\n'], by simp⟩⟩

/-- Witness of C10: the second of two equal direct cross-thread connections,
queried in column 1. -/
theorem data_tooltip_agrees_with_flag_witness :
    data sampleEnv ⟨[⟨some 7, 2, 5, 1⟩, ⟨some 7, 2, 5, 1⟩], some 4⟩ ⟨1, 1, true⟩
      Qt.ToolTipRole =
      some (QVariant.string (duplicateTip ++ "\n\n" ++ crossThreadTip)) :=
  (data_tooltip_agrees_with_flag sampleEnv
    ⟨[⟨some 7, 2, 5, 1⟩, ⟨some 7, 2, 5, 1⟩], some 4⟩ ⟨1, 1, true⟩ ⟨some 7, 2, 5, 1⟩
    (by decide) rfl rfl).2.1 rfl rfl

/-- C3 fails as stated: two records that share endpoint, signal index and
slot index, the signal index being -1, are not flagged. -/
theorem duplicates_flagged_negative_index_counterexample :
    isDuplicate ⟨[⟨some 7, -1, 5, 0⟩, ⟨some 7, -1, 5, 0⟩], some 3⟩ 0 ⟨some 7, -1, 5, 0⟩ = false ∧
    isDuplicate ⟨[⟨some 7, -1, 5, 0⟩, ⟨some 7, -1, 5, 0⟩], some 3⟩ 1 ⟨some 7, -1, 5, 0⟩ = false ∧
    data sampleEnv ⟨[⟨some 7, -1, 5, 0⟩, ⟨some 7, -1, 5, 0⟩], some 3⟩ ⟨0, 0, true⟩
      sampleEnv.roles.WarningFlagRole = some (QVariant.bool false) ∧
    data sampleEnv ⟨[⟨some 7, -1, 5, 0⟩, ⟨some 7, -1, 5, 0⟩], some 3⟩ ⟨1, 0, true⟩
      sampleEnv.roles.WarningFlagRole = some (QVariant.bool false) := by
  decide

/-- C3, amended: two records at different positions that share endpoint
(present or absent), signal index and slot index, both indices being at least
0, are both flagged: `isDuplicate` is true for each and the warning flag role
of column 0 of each row is true. -/
theorem duplicates_flagged (E : Env) (m : AbstractConnectionsModel) (i j : Nat)
    (a b : Connection) (hij : i ≠ j)
    (ha : m.m_connections[i]? = some a) (hb : m.m_connections[j]? = some b)
    (he : a.endpoint = b.endpoint) (hg : a.signalIndex = b.signalIndex)
    (hs : a.slotIndex = b.slotIndex) (hg0 : 0 ≤ a.signalIndex) (hs0 : 0 ≤ a.slotIndex) :
    isDuplicate m i a = true ∧ isDuplicate m j b = true ∧
    data E m ⟨i, 0, true⟩ E.roles.WarningFlagRole = some (QVariant.bool true) ∧
    data E m ⟨j, 0, true⟩ E.roles.WarningFlagRole = some (QVariant.bool true) := by
  have hda : isDuplicate m i a = true :=
    (isDuplicate_eq_true_iff m i a).2
      ⟨j, b, hb, fun h => hij h.symm, he.symm, hs ▸ hs0, hs.symm, hg ▸ hg0, hg.symm⟩
  have hdb : isDuplicate m j b = true :=
    (isDuplicate_eq_true_iff m j b).2 ⟨i, a, ha, hij, he, hs0, hs, hg0, hg⟩
  refine ⟨hda, hdb, ?_, ?_⟩
  · rw [data_of_valid E m ⟨i, 0, true⟩ _ a (by simp [QModelIndex.isValid]) (by simpa using ha),
      dataAt_warning_column0 E m _ a rfl]
    simp [hda]
  · rw [data_of_valid E m ⟨j, 0, true⟩ _ b (by simp [QModelIndex.isValid]) (by simpa using hb),
      dataAt_warning_column0 E m _ b rfl]
    simp [hdb]

/-- Witness of C3, amended: two connections to a destroyed endpoint. -/
theorem duplicates_flagged_witness :
    isDuplicate ⟨[⟨none, 0, 5, 0⟩, ⟨none, 0, 5, 2⟩], some 3⟩ 0 ⟨none, 0, 5, 0⟩ = true ∧
    isDuplicate ⟨[⟨none, 0, 5, 0⟩, ⟨none, 0, 5, 2⟩], some 3⟩ 1 ⟨none, 0, 5, 2⟩ = true ∧
    data sampleEnv ⟨[⟨none, 0, 5, 0⟩, ⟨none, 0, 5, 2⟩], some 3⟩ ⟨(0 : Nat), 0, true⟩
      sampleEnv.roles.WarningFlagRole = some (QVariant.bool true) ∧
    data sampleEnv ⟨[⟨none, 0, 5, 0⟩, ⟨none, 0, 5, 2⟩], some 3⟩ ⟨(1 : Nat), 0, true⟩
      sampleEnv.roles.WarningFlagRole = some (QVariant.bool true) :=
  duplicates_flagged sampleEnv ⟨[⟨none, 0, 5, 0⟩, ⟨none, 0, 5, 2⟩], some 3⟩ 0 1
    ⟨none, 0, 5, 0⟩ ⟨none, 0, 5, 2⟩ (by decide) rfl rfl rfl rfl rfl (by decide) (by decide)

/-- C2 fails as stated: of three equal records the first gets another signal
index; the second is still a duplicate, of the third. -/
theorem isDuplicate_after_change_counterexample :
    (0 : Nat) ≠ 1 ∧
    (([⟨some 7, 2, 5, 0⟩, ⟨some 7, 2, 5, 0⟩, ⟨some 7, 2, 5, 0⟩] : List Connection)[0]? =
      some ⟨some 7, 2, 5, 0⟩) ∧
    (([⟨some 7, 2, 5, 0⟩, ⟨some 7, 2, 5, 0⟩, ⟨some 7, 2, 5, 0⟩] : List Connection)[1]? =
      some ⟨some 7, 2, 5, 0⟩) ∧
    (FieldChange.signalIndex 9).Differs ⟨some 7, 2, 5, 0⟩ ∧
    isDuplicate
      (setRecord ⟨[⟨some 7, 2, 5, 0⟩, ⟨some 7, 2, 5, 0⟩, ⟨some 7, 2, 5, 0⟩], some 3⟩ 0
        ((FieldChange.signalIndex 9).apply ⟨some 7, 2, 5, 0⟩))
      1 ⟨some 7, 2, 5, 0⟩ = true := by
  refine ⟨by decide, rfl, rfl, ?_, by decide⟩
  simp [FieldChange.Differs]

/-- C2, amended: let `a` and `b` be records at different positions with the
same endpoint, signal index and slot index, both indices at least 0, and let
one of these three fields of `a` get a different value. If no third record
has the same (endpoint, signal index, slot index) as `b` or as the changed
record, then `isDuplicate` is false for the changed record and for `b`. -/
theorem isDuplicate_after_change (m : AbstractConnectionsModel) (i j : Nat)
    (a b : Connection) (ch : FieldChange) (hij : i ≠ j)
    (ha : m.m_connections[i]? = some a) (hb : m.m_connections[j]? = some b)
    (he : a.endpoint = b.endpoint) (hg : a.signalIndex = b.signalIndex)
    (hs : a.slotIndex = b.slotIndex) (_hg0 : 0 ≤ a.signalIndex) (_hs0 : 0 ≤ a.slotIndex)
    (hch : ch.Differs a)
    (hno : ∀ k c, k ≠ i → k ≠ j → m.m_connections[k]? = some c →
      ¬ (c.endpoint = b.endpoint ∧ c.signalIndex = b.signalIndex ∧
          c.slotIndex = b.slotIndex) ∧
      ¬ (c.endpoint = (ch.apply a).endpoint ∧ c.signalIndex = (ch.apply a).signalIndex ∧
          c.slotIndex = (ch.apply a).slotIndex)) :
    isDuplicate (setRecord m i (ch.apply a)) i (ch.apply a) = false ∧
    isDuplicate (setRecord m i (ch.apply a)) j b = false := by
  have hdiff : ¬ ((ch.apply a).endpoint = b.endpoint ∧
      (ch.apply a).signalIndex = b.signalIndex ∧ (ch.apply a).slotIndex = b.slotIndex) := by
    rintro ⟨h1, h2, h3⟩
    cases ch with
    | endpoint e => exact hch (h1.trans he.symm)
    | signalIndex v => exact hch (h2.trans hg.symm)
    | slotIndex v => exact hch (h3.trans hs.symm)
  constructor
  · rw [isDuplicate_eq_false_iff]
    intro k c hk hki hm
    obtain ⟨hm1, -, hm3, -, hm5⟩ := hm
    have hk2 : m.m_connections[k]? = some c := by
      simpa [setRecord, List.getElem?_set_ne (Ne.symm hki)] using hk
    by_cases hkj : k = j
    · subst hkj
      have hcb : c = b := Option.some.inj (hk2.symm.trans hb)
      subst hcb
      exact hdiff ⟨hm1.symm, hm5.symm, hm3.symm⟩
    · exact (hno k c hki hkj hk2).2 ⟨hm1, hm5, hm3⟩
  · rw [isDuplicate_eq_false_iff]
    intro k c hk hkj hm
    obtain ⟨hm1, -, hm3, -, hm5⟩ := hm
    by_cases hki : k = i
    · subst hki
      have hk2 : (setRecord m k (ch.apply a)).m_connections[k]? = some (ch.apply a) :=
        set_self_of_getElem? m.m_connections k a (ch.apply a) ha
      have hc : c = ch.apply a := Option.some.inj (hk.symm.trans hk2)
      subst hc
      exact hdiff ⟨hm1, hm5, hm3⟩
    · have hk2 : m.m_connections[k]? = some c := by
        simpa [setRecord, List.getElem?_set_ne (Ne.symm hki)] using hk
      exact (hno k c hki hkj hk2).1 ⟨hm1, hm5, hm3⟩

/-- Witness of C2, amended: two equal records and an unrelated third one; the
slot index of the first is changed from 5 to 6. -/
theorem isDuplicate_after_change_witness :
    isDuplicate (setRecord ⟨[⟨some 7, 2, 5, 0⟩, ⟨some 7, 2, 5, 0⟩, ⟨some 8, 2, 5, 0⟩], some 3⟩
      0 ((FieldChange.slotIndex 6).apply ⟨some 7, 2, 5, 0⟩)) 0
      ((FieldChange.slotIndex 6).apply ⟨some 7, 2, 5, 0⟩) = false ∧
    isDuplicate (setRecord ⟨[⟨some 7, 2, 5, 0⟩, ⟨some 7, 2, 5, 0⟩, ⟨some 8, 2, 5, 0⟩], some 3⟩
      0 ((FieldChange.slotIndex 6).apply ⟨some 7, 2, 5, 0⟩)) 1 ⟨some 7, 2, 5, 0⟩ = false :=
  isDuplicate_after_change ⟨[⟨some 7, 2, 5, 0⟩, ⟨some 7, 2, 5, 0⟩, ⟨some 8, 2, 5, 0⟩], some 3⟩
    0 1 ⟨some 7, 2, 5, 0⟩ ⟨some 7, 2, 5, 0⟩ (FieldChange.slotIndex 6) (by decide) rfl rfl
    rfl rfl rfl (by decide) (by decide) (by simp [FieldChange.Differs])
    (by
      intro k c hki hkj hk
      match k, hki, hkj, hk with
      | 2, _, _, hk =>
        have hc : c = ⟨some 8, 2, 5, 0⟩ := (Option.some.inj hk).symm
        subst hc
        simp [FieldChange.apply]
      | k + 3, _, _, hk => simp at hk)

/-- C8: `displayString(object, methodIndex)` is "<destroyed>" for a null
object whatever the method index, "<unknown>" for an object with a negative
method index, and the pretty-printed signature of the method only for an
object with a method index of at least 0; `displayString(object)` is
"<destroyed>" for a null object. -/
theorem displayString_placeholders (prettyMethod : Nat → Int → String)
    (utilDisplayString : Nat → String) :
    (∀ methodIndex, displayString prettyMethod none methodIndex = "<destroyed>") ∧
    (∀ o methodIndex, methodIndex < 0 →
      displayString prettyMethod (some o) methodIndex = "<unknown>") ∧
    (∀ o methodIndex, 0 ≤ methodIndex →
      displayString prettyMethod (some o) methodIndex = prettyMethod o methodIndex) ∧
    displayStringObject utilDisplayString none = "<destroyed>" := by
  refine ⟨fun _ => rfl, ?_, ?_, rfl⟩
  · intro o methodIndex h
    simp [displayString, h, tr]
  · intro o methodIndex h
    simp [displayString, not_lt.2 h]

/-- Witness of C8: method index -1 on the object at address 4. -/
theorem displayString_placeholders_witness :
    displayString (fun _ _ => "clicked(bool)") (some 4) (-1) = "<unknown>" :=
  (displayString_placeholders (fun _ _ => "clicked(bool)") (fun _ => "QPushButton")).2.1
    4 (-1) (by decide)

end AbstractConnectionsModel

namespace PropertyEditorFactory

/-- C9: a freshly constructed factory creates, for each of the kinds Point,
PointF, Size and SizeF, a widget with auto-fill background enabled, and
nothing for every other kind; for any factory, an empty result of the base
class lookup is returned as it is. -/
theorem createEditor_registered_kinds (parent : Option Nat) :
    (∀ type, type ∈ [QVariant.Point, QVariant.PointF, QVariant.Size, QVariant.SizeF] →
      ∃ w, createEditor new type parent = some w ∧ w.autoFillBackground = true) ∧
    (∀ type, type ∉ [QVariant.Point, QVariant.PointF, QVariant.Size, QVariant.SizeF] →
      createEditor new type parent = none) ∧
    (∀ (f : QItemEditorFactory) type, QItemEditorFactory.createEditor f type parent = none →
      createEditor f type parent = none) := by
  refine ⟨?_, ?_, ?_⟩
  · intro type h
    simp only [List.mem_cons, List.mem_singleton, List.not_mem_nil, or_false] at h
    rcases h with h | h | h | h <;> subst h <;>
      exact ⟨_, rfl, rfl⟩
  · intro type h
    simp only [List.mem_cons, List.mem_singleton, List.not_mem_nil, or_false, not_or] at h
    obtain ⟨h1, h2, h3, h4⟩ := h
    have e1 : (type == QVariant.Point) = false := by simpa using h1
    have e2 : (type == QVariant.PointF) = false := by simpa using h2
    have e3 : (type == QVariant.Size) = false := by simpa using h3
    have e4 : (type == QVariant.SizeF) = false := by simpa using h4
    have hl : new.creatorMap.lookup type = none := by
      show List.lookup type [(QVariant.SizeF, "PropertySizeFEditor"),
        (QVariant.Size, "PropertySizeEditor"), (QVariant.PointF, "PropertyPointFEditor"),
        (QVariant.Point, "PropertyPointEditor")] = none
      simp [List.lookup, e1, e2, e3, e4]
    simp [createEditor, QItemEditorFactory.createEditor, hl]
  · intro f type h
    simp [createEditor, h]

/-- Witness of C9: the kind Point gives an editor, the kind 2 (Int) none. -/
theorem createEditor_registered_kinds_witness :
    (∃ w, createEditor new QVariant.Point (some 1) = some w ∧ w.autoFillBackground = true) ∧
    createEditor new 2 (some 1) = none :=
  ⟨(createEditor_registered_kinds (some 1)).1 QVariant.Point (by decide),
    (createEditor_registered_kinds (some 1)).2.1 2 (by decide)⟩

end PropertyEditorFactory

end GammaRay
